import Mathlib

/-!
# Verification of the caption chunking-and-summarization pipeline

Shallow embedding of the core pipeline of `src/main.py`: splitting a caption
string into words, grouping the words into fixed-size chunks, issuing one
completion request per chunk (when more than one chunk exists), and one final
aggregation request; or a single direct request otherwise.  The external
completion client is modelled as a function from prompt and model to
`Except String String` (error detail or response content), mirroring the
`try/except` around each `client.invoke` call.
-/

namespace YtSumm

/-- Model of Python `str.split()` on a list of characters: splits on runs of
whitespace, discarding empty pieces.  `acc` holds the characters of the word
currently being read, in reverse. -/
def pySplitAux : List Char → List Char → List (List Char)
  | [], [] => []
  | [], acc => [acc.reverse]
  | c :: cs, acc =>
    if c.isWhitespace then
      if acc.isEmpty then pySplitAux cs [] else acc.reverse :: pySplitAux cs []
    else pySplitAux cs (c :: acc)

/-- Model of Python `video_captions.split()` (src/main.py line 131). -/
def pySplit (s : String) : List String :=
  (pySplitAux s.data []).map List.asString

/-- Model of Python `" ".join(ws)`. -/
def joinWords : List String → String
  | [] => ""
  | [w] => w
  | w :: ws => w ++ " " ++ joinWords ws

/-- Model of Python `text.strip()`: remove leading and trailing whitespace. -/
def pyStrip (s : String) : String :=
  (((s.data.dropWhile Char.isWhitespace).reverse.dropWhile Char.isWhitespace).reverse).asString

/-- Recursion structure of the chunking loop, with explicit fuel so that the
definition is structurally recursive (each iteration consumes at least one
word when `0 < L`, so `ws.length` is enough fuel). -/
def chunkWordsGo : Nat → List String → Nat → List (List String)
  | 0, _, _ => []
  | fuel + 1, ws, L =>
    if ws.isEmpty then []
    else if L = 0 then []
    else ws.take L :: chunkWordsGo fuel (ws.drop L) L

/-- The chunking loop of src/main.py lines 134-136, at the word level:
`for i in range(0, len(words), limit): chunks.append(words[i : i + limit])`.
Iteration `i = 0` contributes `words.take limit`, and the remaining iterations
are the chunking of `words.drop limit`.  A step of `0` raises `ValueError` in
Python; the spec only quantifies over limits `L > 0`, and we return `[]` in
that unreachable case. -/
def chunkWords (ws : List String) (L : Nat) : List (List String) :=
  chunkWordsGo ws.length ws L

/-- The chunk list as built by the code: each word group re-joined with spaces
(src/main.py line 136). -/
def chunkStrings (caps : String) (L : Nat) : List String :=
  (chunkWords (pySplit caps) L).map joinWords

/-- The per-chunk / single-path prompt (src/main.py lines 149 and 186):
`f"Summarize the following video captions:\n{text}"`. -/
def chunkPrompt (text : String) : String :=
  "Summarize the following video captions:\n" ++ text

/-- One completion client call wrapped in `try/except` for a chunk
(src/main.py lines 148-153): on success the stripped content, on failure the
placeholder `f"Error during API call: {str(e)}"`. -/
def summarizeChunk (client : String → String → Except String String)
    (model text : String) : String :=
  match client (chunkPrompt text) model with
  | .ok content => pyStrip content
  | .error e => "Error during API call: " ++ e

/-- The labelled-summaries accumulation of src/main.py lines 165-167:
`video_info += f"Chunk {i}:\n\n{chunk_summary}\n\n"` then
`video_info += "---\n\n"`, with `i` counting from `start`. -/
def labelSummaries : Nat → List String → String
  | _, [] => ""
  | i, s :: rest =>
      "Chunk " ++ toString i ++ ":\n\n" ++ s ++ "\n\n" ++ "---\n\n" ++
        labelSummaries (i + 1) rest

/-- The `video_info` string of the multi-chunk path (src/main.py lines
162-167). -/
def videoInfoMulti (url videoData : String) (summaries : List String) : String :=
  "Video URL: " ++ url ++ "\n\n" ++ "Video Data: " ++ videoData ++ "\n\n" ++
    "Summaries:\n\n" ++ labelSummaries 1 summaries

/-- The aggregation prompt of src/main.py line 170:
`f"Summarize the following captions:\n{video_info}"`. -/
def aggPrompt (url videoData : String) (summaries : List String) : String :=
  "Summarize the following captions:\n" ++ videoInfoMulti url videoData summaries

/-- The report-format configuration of src/main.py lines 14-56
(`get_video_summarizer`).  It is returned to the caller but never consulted
when prompts are built. -/
structure SummarizerConfig where
  model : String
  description : String
  instructions : List String
  addToSystemPrompt : String
  markdown : Bool
  addDatetimeToInstructions : Bool
  debugMode : Bool
deriving DecidableEq

/-- `get_video_summarizer` of src/main.py lines 14-56. -/
def getVideoSummarizer (model : String) (debugMode : Bool) : SummarizerConfig :=
  { model := model
    description := "You are a Senior NYT Reporter tasked with writing a summary of a youtube video."
    instructions :=
      ["You will be provided with: ",
       "  1. Youtube video link and information about the video",
       "  2. Pre-processed summaries from junior researchers.",
       "Carefully process the information and think about the contents.",
       "Then generate a final New York Times-worthy report in a structured format.",
       "Make your report engaging, informative, and well-structured.",
       "Break the report into sections and provide key takeaways at the end.",
       "Make sure the title is a markdown link to the video.",
       "Give relevant titles to sections and provide details/facts/processes in each section.",
       "REMEMBER: you are writing for the New York Times, so the quality of the report is important."]
    addToSystemPrompt := "\n<report_format>\n## Video Title with Link\n\x7bthis is the markdown link to the video\x7d\n\n### Overview\n\x7bgive a brief introduction of the video and why the user should read this report\x7d\n\x7bmake this section engaging and create a hook for the reader\x7d\n\n### Section 1\n\x7bbreak the report into sections\x7d\n\x7bprovide details/facts/processes in this section\x7d\n\n... more sections as necessary...\n\n### Takeaways\n\x7bprovide key takeaways from the video\x7d\n\nReport generated on: \x7bMonth Date, Year (hh:mm AM/PM)\x7d\n</report_format>\n"
    markdown := true
    addDatetimeToInstructions := true
    debugMode := debugMode }

/-- Everything one run of the pipeline produces: whether the captions guard
passed, the chunk list, the per-chunk summaries, the full ordered trace of
prompts sent to the completion client, and the final report text (or fallback
message). -/
structure RunOutput where
  parsed : Bool
  chunks : List String
  chunkSummaries : List String
  calls : List String
  report : String
deriving DecidableEq

/-- The fallback message of src/main.py line 123. -/
def couldNotParseMsg : String :=
  "Sorry, could not parse the video. Please try again or use a different video."

/-- The pipeline of src/main.py lines 122-192: the captions guard
(`if not video_captions`, true for an absent or empty string), chunking,
the multi-chunk branch (`num_chunks > 1`) with per-chunk summarization and a
final aggregation call, and the single/zero-chunk branch with one direct call
over the full caption text.  `calls` records every prompt sent to the client,
in execution order. -/
def pipeline (client : String → String → Except String String)
    (url videoData model : String) (captions : Option String) (limit : Nat) :
    RunOutput :=
  match captions with
  | none => ⟨false, [], [], [], couldNotParseMsg⟩
  | some caps =>
    if caps.data.isEmpty then ⟨false, [], [], [], couldNotParseMsg⟩
    else
      let cs := (chunkWords (pySplit caps) limit).map joinWords
      if cs.length > 1 then
        let summaries := cs.map (fun c => summarizeChunk client model c)
        let p := aggPrompt url videoData summaries
        let report :=
          match client p model with
          | .ok content => pyStrip content
          | .error e => "Error during final summary generation: " ++ e
        ⟨true, cs, summaries, cs.map chunkPrompt ++ [p], report⟩
      else
        let p := chunkPrompt caps
        let report :=
          match client p model with
          | .ok content => pyStrip content
          | .error e => "Error during summary generation: " ++ e
        ⟨true, cs, [], [p], report⟩

/-- Python truthiness of the captions value (`not video_captions`,
src/main.py line 122): true for an absent value and for the empty string. -/
def captionsFalsy : Option String → Bool
  | none => true
  | some s => s.data.isEmpty

/-- Concatenation of a list of strings, used to restate the labelled-summary
accumulation positionally. -/
def strConcat : List String → String
  | [] => ""
  | s :: rest => s ++ strConcat rest

/-! ## Basic properties of the chunker -/

theorem chunkWordsGo_nil (fuel L : Nat) : chunkWordsGo fuel [] L = [] := by
  cases fuel <;> rfl

/-- `chunkWordsGo` does not depend on the fuel once the fuel covers the
length of the list. -/
theorem chunkWordsGo_fuel (fuel₁ : Nat) : ∀ (fuel₂ : Nat) (ws : List String) (L : Nat),
    ws.length ≤ fuel₁ → ws.length ≤ fuel₂ →
    chunkWordsGo fuel₁ ws L = chunkWordsGo fuel₂ ws L := by
  induction fuel₁ with
  | zero =>
    intro fuel₂ ws L h _
    have : ws = [] := List.eq_nil_of_length_eq_zero (Nat.le_zero.mp h)
    subst this
    rw [chunkWordsGo_nil, chunkWordsGo_nil]
  | succ n ih =>
    intro fuel₂ ws L h1 h2
    cases ws with
    | nil => rw [chunkWordsGo_nil, chunkWordsGo_nil]
    | cons x xs =>
      cases fuel₂ with
      | zero => simp at h2
      | succ k =>
        by_cases hL : L = 0
        · subst hL; simp [chunkWordsGo]
        · simp only [List.length_cons] at h1 h2
          simp only [chunkWordsGo, List.isEmpty_cons, if_neg hL,
            if_neg (by simp : ¬ (false = true))]
          have hd : (List.drop L (x :: xs)).length = xs.length + 1 - L := by
            simp [List.length_drop]
          congr 1
          exact ih k _ L (by omega) (by omega)

/-- The defining unfolding of the chunking loop for a positive limit. -/
theorem chunkWords_eq (ws : List String) (L : Nat) (hL : 0 < L) :
    chunkWords ws L =
      if ws = [] then []
      else ws.take L :: chunkWords (ws.drop L) L := by
  cases ws with
  | nil => rfl
  | cons x xs =>
    simp only [chunkWords, List.length_cons, chunkWordsGo, List.isEmpty_cons,
      if_neg (Nat.pos_iff_ne_zero.mp hL), if_neg (by simp : ¬ (false = true)),
      List.length_drop, if_neg (by simp : ¬ (x :: xs) = [])]
    congr 1
    exact chunkWordsGo_fuel xs.length _ _ L
      (by simp only [List.length_drop, List.length_cons]; omega)
      (by simp [List.length_drop])

theorem chunkWords_nil (L : Nat) : chunkWords [] L = [] := rfl

theorem chunkWords_ne_nil (ws : List String) (L : Nat) (hL : 0 < L) (hw : ws ≠ []) :
    chunkWords ws L ≠ [] := by
  rw [chunkWords_eq ws L hL, if_neg hw]
  exact List.cons_ne_nil _ _

/-- The chunker produces `⌈ws.length / L⌉` chunks (as `(ws.length + L - 1) / L`). -/
theorem chunkWords_length (L : Nat) (hL : 0 < L) :
    ∀ (n : Nat) (ws : List String), ws.length ≤ n →
    (chunkWords ws L).length = (ws.length + L - 1) / L := by
  intro n
  induction n with
  | zero =>
    intro ws h
    have : ws = [] := List.eq_nil_of_length_eq_zero (Nat.le_zero.mp h)
    subst this
    rw [chunkWords_nil]
    simp only [List.length_nil]
    exact (Nat.div_eq_of_lt (by omega : 0 + L - 1 < L)).symm
  | succ n ih =>
    intro ws h
    by_cases hw : ws = []
    · subst hw
      rw [chunkWords_nil]
      simp only [List.length_nil]
      exact (Nat.div_eq_of_lt (by omega : 0 + L - 1 < L)).symm
    · have hpos : 0 < ws.length := List.length_pos.mpr hw
      rw [chunkWords_eq ws L hL, if_neg hw]
      rw [List.length_cons, ih (ws.drop L) (by simp only [List.length_drop]; omega)]
      simp only [List.length_drop]
      rcases Nat.le_total ws.length L with hle | hlt
      · have h1 : ws.length - L = 0 := by omega
        rw [h1, Nat.div_eq_of_lt (by omega : 0 + L - 1 < L),
          Nat.div_eq_of_lt_le (by omega : 1 * L ≤ ws.length + L - 1)
            (by omega : ws.length + L - 1 < (1 + 1) * L)]
      · have h1 : ws.length - L + L - 1 = ws.length - 1 := by omega
        have h2 : ws.length + L - 1 = (ws.length - 1) + L := by omega
        rw [h1, h2, Nat.add_div_right _ hL]

/-- Concatenating the chunks in order reproduces the word list. -/
theorem chunkWords_flatten (L : Nat) (hL : 0 < L) :
    ∀ (n : Nat) (ws : List String), ws.length ≤ n →
    (chunkWords ws L).flatten = ws := by
  intro n
  induction n with
  | zero =>
    intro ws h
    have : ws = [] := List.eq_nil_of_length_eq_zero (Nat.le_zero.mp h)
    subst this
    rw [chunkWords_nil]; rfl
  | succ n ih =>
    intro ws h
    by_cases hw : ws = []
    · subst hw; rw [chunkWords_nil]; rfl
    · have hpos : 0 < ws.length := List.length_pos.mpr hw
      rw [chunkWords_eq ws L hL, if_neg hw, List.flatten_cons,
        ih (ws.drop L) (by simp only [List.length_drop]; omega),
        List.take_append_drop]

/-- Every chunk except possibly the last has exactly `L` words. -/
theorem chunkWords_dropLast (L : Nat) (hL : 0 < L) :
    ∀ (n : Nat) (ws : List String), ws.length ≤ n →
    ∀ c ∈ (chunkWords ws L).dropLast, c.length = L := by
  intro n
  induction n with
  | zero =>
    intro ws h c hc
    have : ws = [] := List.eq_nil_of_length_eq_zero (Nat.le_zero.mp h)
    subst this
    rw [chunkWords_nil] at hc
    simp at hc
  | succ n ih =>
    intro ws h c hc
    by_cases hw : ws = []
    · subst hw; rw [chunkWords_nil] at hc; simp at hc
    · have hpos : 0 < ws.length := List.length_pos.mpr hw
      rw [chunkWords_eq ws L hL, if_neg hw] at hc
      by_cases hd : ws.drop L = []
      · rw [hd, chunkWords_nil] at hc
        simp at hc
      · rw [List.dropLast_cons_of_ne_nil (chunkWords_ne_nil _ L hL hd)] at hc
        rcases List.mem_cons.mp hc with hc | hc
        · subst hc
          have : L ≤ ws.length := by
            by_contra hcon
            exact hd (List.drop_eq_nil_of_le (by omega))
          simp [List.length_take, Nat.min_eq_left this]
        · exact ih (ws.drop L) (by simp only [List.length_drop]; omega) c hc

/-- The last chunk has `ws.length % L` words, or `L` when `ws.length` is
non-zero and divisible by `L`. -/
theorem chunkWords_getLast (L : Nat) (hL : 0 < L) :
    ∀ (n : Nat) (ws : List String), ws.length ≤ n → ws ≠ [] →
    (chunkWords ws L).getLast?.map List.length =
      some (if ws.length % L = 0 then L else ws.length % L) := by
  intro n
  induction n with
  | zero =>
    intro ws h hw
    exact absurd (List.eq_nil_of_length_eq_zero (Nat.le_zero.mp h)) hw
  | succ n ih =>
    intro ws h hw
    have hpos : 0 < ws.length := List.length_pos.mpr hw
    rw [chunkWords_eq ws L hL, if_neg hw]
    by_cases hd : ws.drop L = []
    · have hle : ws.length ≤ L := by
        by_contra hcon
        have hh := congrArg List.length hd
        simp only [List.length_drop, List.length_nil] at hh
        omega
      rw [hd, chunkWords_nil]
      have hmin : (List.take L ws).length = ws.length := by
        simp only [List.length_take]
        omega
      simp only [List.getLast?_singleton, Option.map_some', hmin, Option.some.injEq]
      rcases Nat.lt_or_ge ws.length L with hlt | hge
      · rw [Nat.mod_eq_of_lt hlt, if_neg (by omega)]
      · have hEq : ws.length = L := by omega
        rw [hEq, Nat.mod_self, if_pos rfl]
    · have hlen : L < ws.length := by
        by_contra hcon
        exact hd (List.drop_eq_nil_of_le (by omega))
      rcases List.exists_cons_of_ne_nil (chunkWords_ne_nil _ L hL hd) with ⟨a, as, ha⟩
      rw [ha, List.getLast?_cons_cons, ← ha,
        ih (ws.drop L) (by simp only [List.length_drop]; omega) hd]
      simp only [List.length_drop]
      rw [← Nat.mod_eq_sub_mod (by omega)]

/-- When the limit exceeds the length of a non-empty word list, there is
exactly one chunk, containing the whole list. -/
theorem chunkWords_single (ws : List String) (L : Nat)
    (hpos : 0 < ws.length) (hlt : ws.length < L) :
    chunkWords ws L = [ws] := by
  have hw : ws ≠ [] := by
    intro hnil; subst hnil; simp at hpos
  rw [chunkWords_eq ws L (by omega), if_neg hw,
    List.take_of_length_le (by omega),
    List.drop_eq_nil_of_le (by omega), chunkWords_nil]

/-! ## Pipeline case equations -/

theorem pipeline_none (client : String → String → Except String String)
    (u d m : String) (L : Nat) :
    pipeline client u d m none L = ⟨false, [], [], [], couldNotParseMsg⟩ := rfl

theorem pipeline_empty (client : String → String → Except String String)
    (u d m caps : String) (L : Nat) (hc : caps.data.isEmpty = true) :
    pipeline client u d m (some caps) L = ⟨false, [], [], [], couldNotParseMsg⟩ := by
  simp only [pipeline, hc, if_pos]

theorem pipeline_multi (client : String → String → Except String String)
    (u d m caps : String) (L : Nat) (hc : caps.data.isEmpty = false)
    (hN : 1 < (chunkStrings caps L).length) :
    pipeline client u d m (some caps) L =
      ⟨true, chunkStrings caps L,
        (chunkStrings caps L).map (summarizeChunk client m),
        (chunkStrings caps L).map chunkPrompt ++
          [aggPrompt u d ((chunkStrings caps L).map (summarizeChunk client m))],
        match client
            (aggPrompt u d ((chunkStrings caps L).map (summarizeChunk client m))) m with
        | .ok content => pyStrip content
        | .error e => "Error during final summary generation: " ++ e⟩ := by
  simp only [pipeline, hc, Bool.false_eq_true, if_false, chunkStrings] at *
  rw [if_pos hN]

theorem pipeline_single (client : String → String → Except String String)
    (u d m caps : String) (L : Nat) (hc : caps.data.isEmpty = false)
    (hN : ¬ 1 < (chunkStrings caps L).length) :
    pipeline client u d m (some caps) L =
      ⟨true, chunkStrings caps L, [], [chunkPrompt caps],
        match client (chunkPrompt caps) m with
        | .ok content => pyStrip content
        | .error e => "Error during summary generation: " ++ e⟩ := by
  simp only [pipeline, hc, Bool.false_eq_true, if_false, chunkStrings] at *
  rw [if_neg hN]

theorem pipeline_chunks (client : String → String → Except String String)
    (u d m caps : String) (L : Nat) (hc : caps.data.isEmpty = false) :
    (pipeline client u d m (some caps) L).chunks = chunkStrings caps L := by
  by_cases hN : 1 < (chunkStrings caps L).length
  · rw [pipeline_multi client u d m caps L hc hN]
  · rw [pipeline_single client u d m caps L hc hN]

/-- The labelled-summary accumulation is the in-order concatenation of one
block per summary, block `i` carrying the 1-based index `k + i` and the
`i`-th summary, separated by the `---` delimiter. -/
theorem labelSummaries_enumFrom : ∀ (ss : List String) (k : Nat),
    labelSummaries k ss = strConcat ((ss.enumFrom k).map fun p =>
      "Chunk " ++ toString p.1 ++ ":\n\n" ++ p.2 ++ "\n\n" ++ "---\n\n") := by
  intro ss
  induction ss with
  | nil => intro k; rfl
  | cons s rest ih =>
    intro k
    simp only [List.enumFrom_cons, List.map_cons, strConcat, labelSummaries, ih (k + 1)]

theorem prompt_head_S (pre t : String) (hp : pre.data.head? = some 'S') :
    (pre ++ t).data.head? = some 'S' := by
  rw [String.data_append, List.head?_append, hp]
  rfl

/-! ## The claims -/

/-- C1: for every transcript `T` (word sequence) and limit `L > 0`, the
chunking step produces `⌈T.length / L⌉` chunks (written
`(T.length + L - 1) / L`); concatenating the words of all chunks in order
reproduces `T` exactly; every chunk except possibly the last has exactly `L`
words; the last chunk has `T.length % L` words (or `L` when `T.length` is
non-zero and divisible by `L`); and when `L > T.length > 0` exactly one chunk
is produced, containing the whole transcript. -/
theorem C1_chunker_correct (T : List String) (L : Nat) (hL : 0 < L) :
    (chunkWords T L).length = (T.length + L - 1) / L ∧
    (chunkWords T L).flatten = T ∧
    (∀ c ∈ (chunkWords T L).dropLast, c.length = L) ∧
    (T ≠ [] → (chunkWords T L).getLast?.map List.length =
      some (if T.length % L = 0 then L else T.length % L)) ∧
    (0 < T.length → T.length < L → chunkWords T L = [T]) :=
  ⟨chunkWords_length L hL T.length T le_rfl,
   chunkWords_flatten L hL T.length T le_rfl,
   chunkWords_dropLast L hL T.length T le_rfl,
   chunkWords_getLast L hL T.length T le_rfl,
   chunkWords_single T L⟩

theorem C1_chunker_correct_witness :
    0 < 2 ∧
    ((chunkWords ["a", "b", "c"] 2).length = (["a", "b", "c"].length + 2 - 1) / 2 ∧
     (chunkWords ["a", "b", "c"] 2).flatten = ["a", "b", "c"] ∧
     (∀ c ∈ (chunkWords ["a", "b", "c"] 2).dropLast, c.length = 2) ∧
     (["a", "b", "c"] ≠ [] → (chunkWords ["a", "b", "c"] 2).getLast?.map List.length =
       some (if ["a", "b", "c"].length % 2 = 0 then 2 else ["a", "b", "c"].length % 2)) ∧
     (0 < ["a", "b", "c"].length → ["a", "b", "c"].length < 2 →
       chunkWords ["a", "b", "c"] 2 = [["a", "b", "c"]])) :=
  ⟨by decide, C1_chunker_correct ["a", "b", "c"] 2 (by decide)⟩

/-- C2 (counterexample): in a concrete multi-chunk run with video metadata
`"Z"`, the per-chunk summarization step's prompt for chunk 1 is exactly the
fixed prefix followed by the chunk text, and the video metadata does not
occur in it — refuting the claim that every per-chunk prompt embeds the
auxiliary context. -/
theorem C2_counterexample :
    (pipeline (fun _ _ => Except.ok "S") "u" "Z" "m" (some "a b") 1).chunks = ["a", "b"] ∧
    (pipeline (fun _ _ => Except.ok "S") "u" "Z" "m" (some "a b") 1).calls.head? =
      some (chunkPrompt "a") ∧
    ¬ ∃ s₁ s₂ : String, chunkPrompt "a" = s₁ ++ "Z" ++ s₂ := by
  refine ⟨by decide, by decide, ?_⟩
  rintro ⟨s₁, s₂, h⟩
  have hz : 'Z' ∈ (chunkPrompt "a").data := by
    rw [h]
    simp only [String.data_append, List.mem_append]
    exact Or.inl (Or.inr (by decide))
  revert hz
  decide

/-- C2 (amended): for every chunk of a multi-chunk run, the per-chunk
summarization step sends the completion client exactly one prompt (the trace
holds one chunk prompt per chunk, in order, before the single aggregation
prompt), and that prompt embeds the chunk's text; the video metadata context
is assembled into a local string but is not part of the prompt. -/
theorem C2_per_chunk_call (client : String → String → Except String String)
    (u d m caps : String) (L : Nat) (hL : 0 < L) (hc : caps.data.isEmpty = false)
    (hN : 1 < (pipeline client u d m (some caps) L).chunks.length) :
    (pipeline client u d m (some caps) L).calls =
      (pipeline client u d m (some caps) L).chunks.map chunkPrompt ++
        [aggPrompt u d (pipeline client u d m (some caps) L).chunkSummaries] ∧
    ∀ c ∈ (pipeline client u d m (some caps) L).chunks,
      ∃ s₁ s₂ : String, chunkPrompt c = s₁ ++ c ++ s₂ := by
  rw [pipeline_chunks client u d m caps L hc] at hN
  rw [pipeline_multi client u d m caps L hc hN]
  refine ⟨rfl, fun c _ => ⟨"Summarize the following video captions:\n", "", ?_⟩⟩
  rw [String.append_empty]
  rfl

theorem C2_per_chunk_call_witness :
    (pipeline (fun _ _ => Except.ok "S") "u" "d" "m" (some "a b") 1).calls =
      (pipeline (fun _ _ => Except.ok "S") "u" "d" "m" (some "a b") 1).chunks.map chunkPrompt ++
        [aggPrompt "u" "d" (pipeline (fun _ _ => Except.ok "S") "u" "d" "m" (some "a b") 1).chunkSummaries] ∧
    ∀ c ∈ (pipeline (fun _ _ => Except.ok "S") "u" "d" "m" (some "a b") 1).chunks,
      ∃ s₁ s₂ : String, chunkPrompt c = s₁ ++ c ++ s₂ :=
  C2_per_chunk_call (fun _ _ => Except.ok "S") "u" "d" "m" "a b" 1 (by decide) (by decide)
    (by decide)

/-- C3 (counterexample): the caption string `" "` has an empty word sequence
(0 words) and yields 0 chunks, yet the run does not take the "could not
parse" outcome: it proceeds and issues one direct completion call — refuting
the claim that every 0-word caption input halts before any request. -/
theorem C3_counterexample :
    pySplit " " = [] ∧
    pipeline (fun _ _ => Except.ok "S") "u" "d" "m" (some " ") 4500 =
      ⟨true, [], [], [chunkPrompt " "], "S"⟩ := by
  constructor
  · decide
  · decide

/-- C3 (amended): for every caption input that is Python-falsy (absent, or
the empty string), the pipeline produces 0 chunks, yields the "could not
parse" outcome, and makes zero completion calls; and no completion request is
ever issued unless a non-empty captions string was obtained.  (A non-empty
whitespace-only captions string has 0 words yet still triggers one direct
completion call, so the guard tests string emptiness, not word count.) -/
theorem C3_falsy_guard (client : String → String → Except String String)
    (u d m : String) (caps : Option String) (L : Nat)
    (hF : captionsFalsy caps = true) :
    pipeline client u d m caps L = ⟨false, [], [], [], couldNotParseMsg⟩ ∧
    ∀ caps' : Option String, (pipeline client u d m caps' L).calls ≠ [] →
      captionsFalsy caps' = false := by
  constructor
  · cases caps with
    | none => exact pipeline_none client u d m L
    | some s =>
      exact pipeline_empty client u d m s L (by simpa [captionsFalsy] using hF)
  · intro caps' hne
    cases caps' with
    | none => exact absurd (by rw [pipeline_none]) hne
    | some s =>
      by_cases hs : s.data.isEmpty
      · exact absurd (by rw [pipeline_empty client u d m s L hs]) hne
      · simpa [captionsFalsy] using hs

theorem C3_falsy_guard_witness :
    pipeline (fun _ _ => Except.ok "S") "u" "d" "m" none 4500 =
      ⟨false, [], [], [], couldNotParseMsg⟩ ∧
    ∀ caps' : Option String,
      (pipeline (fun _ _ => Except.ok "S") "u" "d" "m" caps' 4500).calls ≠ [] →
      captionsFalsy caps' = false :=
  C3_falsy_guard (fun _ _ => Except.ok "S") "u" "d" "m" none 4500 (by decide)

/-- C4: whenever a completion call signals an error, the recorded result is a
human-readable placeholder embedding the error detail (`Error during API
call: e` per chunk, `Error during final summary generation: e` for the
aggregation, `Error during summary generation: e` for the direct call);
every chunk still gets a summary and the aggregation call still runs; and the
pipeline is a total function, so no error propagates upward past it. -/
theorem C4_failure_placeholders (client : String → String → Except String String)
    (u d m caps : String) (L : Nat) (hL : 0 < L) (hc : caps.data.isEmpty = false) :
    (∀ text e, client (chunkPrompt text) m = Except.error e →
      summarizeChunk client m text = "Error during API call: " ++ e) ∧
    (1 < (pipeline client u d m (some caps) L).chunks.length →
      (pipeline client u d m (some caps) L).chunkSummaries =
        (pipeline client u d m (some caps) L).chunks.map (summarizeChunk client m) ∧
      (pipeline client u d m (some caps) L).calls =
        (pipeline client u d m (some caps) L).chunks.map chunkPrompt ++
          [aggPrompt u d (pipeline client u d m (some caps) L).chunkSummaries] ∧
      ∀ e, client (aggPrompt u d (pipeline client u d m (some caps) L).chunkSummaries) m =
          Except.error e →
        (pipeline client u d m (some caps) L).report =
          "Error during final summary generation: " ++ e) ∧
    (¬ 1 < (pipeline client u d m (some caps) L).chunks.length →
      ∀ e, client (chunkPrompt caps) m = Except.error e →
        (pipeline client u d m (some caps) L).report =
          "Error during summary generation: " ++ e) := by
  refine ⟨fun text e he => ?_, fun hN => ?_, fun hN => ?_⟩
  · unfold summarizeChunk
    rw [he]
  · rw [pipeline_chunks client u d m caps L hc] at hN
    rw [pipeline_multi client u d m caps L hc hN]
    refine ⟨rfl, rfl, fun e he => ?_⟩
    dsimp only
    rw [he]
  · rw [pipeline_chunks client u d m caps L hc] at hN
    rw [pipeline_single client u d m caps L hc hN]
    intro e he
    dsimp only
    rw [he]

theorem C4_failure_placeholders_witness :
    (∀ text e, (fun _ _ => Except.error "boom" : String → String → Except String String)
        (chunkPrompt text) "m" = Except.error e →
      summarizeChunk (fun _ _ => Except.error "boom") "m" text = "Error during API call: " ++ e) ∧
    (1 < (pipeline (fun _ _ => Except.error "boom") "u" "d" "m" (some "a b") 1).chunks.length →
      (pipeline (fun _ _ => Except.error "boom") "u" "d" "m" (some "a b") 1).chunkSummaries =
        (pipeline (fun _ _ => Except.error "boom") "u" "d" "m" (some "a b") 1).chunks.map
          (summarizeChunk (fun _ _ => Except.error "boom") "m") ∧
      (pipeline (fun _ _ => Except.error "boom") "u" "d" "m" (some "a b") 1).calls =
        (pipeline (fun _ _ => Except.error "boom") "u" "d" "m" (some "a b") 1).chunks.map chunkPrompt ++
          [aggPrompt "u" "d" (pipeline (fun _ _ => Except.error "boom") "u" "d" "m" (some "a b") 1).chunkSummaries] ∧
      ∀ e, (fun _ _ => Except.error "boom" : String → String → Except String String)
          (aggPrompt "u" "d" (pipeline (fun _ _ => Except.error "boom") "u" "d" "m" (some "a b") 1).chunkSummaries) "m" =
          Except.error e →
        (pipeline (fun _ _ => Except.error "boom") "u" "d" "m" (some "a b") 1).report =
          "Error during final summary generation: " ++ e) ∧
    (¬ 1 < (pipeline (fun _ _ => Except.error "boom") "u" "d" "m" (some "a b") 1).chunks.length →
      ∀ e, (fun _ _ => Except.error "boom" : String → String → Except String String)
          (chunkPrompt "a b") "m" = Except.error e →
        (pipeline (fun _ _ => Except.error "boom") "u" "d" "m" (some "a b") 1).report =
          "Error during summary generation: " ++ e) :=
  C4_failure_placeholders (fun _ _ => Except.error "boom") "u" "d" "m" "a b" 1 (by decide)
    (by decide)

/-- C5: when the chunk count exceeds 1, the run issues exactly one
chunk-summary call per chunk, in chunk order, followed by exactly one
aggregation call (so `N + 1` calls in total); when the chunk count is 1, it
issues zero chunk-summary calls and exactly one direct completion call whose
prompt carries the full caption text. -/
theorem C5_call_counts (client : String → String → Except String String)
    (u d m caps : String) (L : Nat) (hL : 0 < L) (hc : caps.data.isEmpty = false) :
    (1 < (pipeline client u d m (some caps) L).chunks.length →
      (pipeline client u d m (some caps) L).calls =
        (pipeline client u d m (some caps) L).chunks.map chunkPrompt ++
          [aggPrompt u d (pipeline client u d m (some caps) L).chunkSummaries] ∧
      (pipeline client u d m (some caps) L).calls.length =
        (pipeline client u d m (some caps) L).chunks.length + 1) ∧
    ((pipeline client u d m (some caps) L).chunks.length = 1 →
      (pipeline client u d m (some caps) L).calls = [chunkPrompt caps]) := by
  by_cases hN : 1 < (chunkStrings caps L).length
  · rw [pipeline_multi client u d m caps L hc hN]
    refine ⟨fun _ => ⟨rfl, by simp⟩, fun h1 => ?_⟩
    simp only [] at h1
    omega
  · rw [pipeline_single client u d m caps L hc hN]
    exact ⟨fun h1 => absurd h1 (by simpa using hN), fun _ => rfl⟩

theorem C5_call_counts_witness :
    (1 < (pipeline (fun _ _ => Except.ok "S") "u" "d" "m" (some "a b") 1).chunks.length →
      (pipeline (fun _ _ => Except.ok "S") "u" "d" "m" (some "a b") 1).calls =
        (pipeline (fun _ _ => Except.ok "S") "u" "d" "m" (some "a b") 1).chunks.map chunkPrompt ++
          [aggPrompt "u" "d" (pipeline (fun _ _ => Except.ok "S") "u" "d" "m" (some "a b") 1).chunkSummaries] ∧
      (pipeline (fun _ _ => Except.ok "S") "u" "d" "m" (some "a b") 1).calls.length =
        (pipeline (fun _ _ => Except.ok "S") "u" "d" "m" (some "a b") 1).chunks.length + 1) ∧
    ((pipeline (fun _ _ => Except.ok "S") "u" "d" "m" (some "a b") 1).chunks.length = 1 →
      (pipeline (fun _ _ => Except.ok "S") "u" "d" "m" (some "a b") 1).calls = [chunkPrompt "a b"]) :=
  C5_call_counts (fun _ _ => Except.ok "S") "u" "d" "m" "a b" 1 (by decide) (by decide)

/-- C6: in a multi-chunk run the aggregation prompt is the fixed prefix
followed by the video context (URL and metadata) and then each chunk summary
labelled with its 1-based index, in index order, separated by the visible
`---` delimiter; and exactly one completion request carries this combined
prompt, as the last entry of the call trace. -/
theorem C6_aggregate_order (client : String → String → Except String String)
    (u d m caps : String) (L : Nat) (hL : 0 < L) (hc : caps.data.isEmpty = false)
    (hN : 1 < (pipeline client u d m (some caps) L).chunks.length) :
    (pipeline client u d m (some caps) L).calls =
      (pipeline client u d m (some caps) L).chunks.map chunkPrompt ++
        [aggPrompt u d (pipeline client u d m (some caps) L).chunkSummaries] ∧
    aggPrompt u d (pipeline client u d m (some caps) L).chunkSummaries =
      "Summarize the following captions:\n" ++
        ("Video URL: " ++ u ++ "\n\n" ++ "Video Data: " ++ d ++ "\n\n" ++
          "Summaries:\n\n" ++ labelSummaries 1 (pipeline client u d m (some caps) L).chunkSummaries) ∧
    labelSummaries 1 (pipeline client u d m (some caps) L).chunkSummaries =
      strConcat ((((pipeline client u d m (some caps) L).chunkSummaries).enumFrom 1).map fun p =>
        "Chunk " ++ toString p.1 ++ ":\n\n" ++ p.2 ++ "\n\n" ++ "---\n\n") := by
  rw [pipeline_chunks client u d m caps L hc] at hN
  rw [pipeline_multi client u d m caps L hc hN]
  exact ⟨rfl, rfl, labelSummaries_enumFrom _ 1⟩

theorem C6_aggregate_order_witness :
    (pipeline (fun _ _ => Except.ok "S") "u" "d" "m" (some "a b") 1).calls =
      (pipeline (fun _ _ => Except.ok "S") "u" "d" "m" (some "a b") 1).chunks.map chunkPrompt ++
        [aggPrompt "u" "d" (pipeline (fun _ _ => Except.ok "S") "u" "d" "m" (some "a b") 1).chunkSummaries] ∧
    aggPrompt "u" "d" (pipeline (fun _ _ => Except.ok "S") "u" "d" "m" (some "a b") 1).chunkSummaries =
      "Summarize the following captions:\n" ++
        ("Video URL: " ++ "u" ++ "\n\n" ++ "Video Data: " ++ "d" ++ "\n\n" ++
          "Summaries:\n\n" ++ labelSummaries 1 (pipeline (fun _ _ => Except.ok "S") "u" "d" "m" (some "a b") 1).chunkSummaries) ∧
    labelSummaries 1 (pipeline (fun _ _ => Except.ok "S") "u" "d" "m" (some "a b") 1).chunkSummaries =
      strConcat ((((pipeline (fun _ _ => Except.ok "S") "u" "d" "m" (some "a b") 1).chunkSummaries).enumFrom 1).map fun p =>
        "Chunk " ++ toString p.1 ++ ":\n\n" ++ p.2 ++ "\n\n" ++ "---\n\n") :=
  C6_aggregate_order (fun _ _ => Except.ok "S") "u" "d" "m" "a b" 1 (by decide) (by decide)
    (by decide)

/-- C7: in every multi-chunk run the number of chunk summaries equals the
number of chunks, summary `i` is exactly the summarization result of chunk
`i` (possibly an error placeholder), and the single aggregation call — whose
prompt is built from all the summaries — comes last in the trace, after the
chunk calls. -/
theorem C7_summary_invariant (client : String → String → Except String String)
    (u d m caps : String) (L : Nat) (hL : 0 < L) (hc : caps.data.isEmpty = false)
    (hN : 1 < (pipeline client u d m (some caps) L).chunks.length) :
    (pipeline client u d m (some caps) L).chunkSummaries.length =
      (pipeline client u d m (some caps) L).chunks.length ∧
    (∀ i : Nat, (pipeline client u d m (some caps) L).chunkSummaries[i]? =
      ((pipeline client u d m (some caps) L).chunks[i]?).map (summarizeChunk client m)) ∧
    (pipeline client u d m (some caps) L).calls =
      (pipeline client u d m (some caps) L).chunks.map chunkPrompt ++
        [aggPrompt u d (pipeline client u d m (some caps) L).chunkSummaries] := by
  rw [pipeline_chunks client u d m caps L hc] at hN
  rw [pipeline_multi client u d m caps L hc hN]
  refine ⟨by simp, fun i => ?_, rfl⟩
  simp [List.getElem?_map]

theorem C7_summary_invariant_witness :
    (pipeline (fun _ _ => Except.ok "S") "u" "d" "m" (some "a b") 1).chunkSummaries.length =
      (pipeline (fun _ _ => Except.ok "S") "u" "d" "m" (some "a b") 1).chunks.length ∧
    (∀ i : Nat, (pipeline (fun _ _ => Except.ok "S") "u" "d" "m" (some "a b") 1).chunkSummaries[i]? =
      ((pipeline (fun _ _ => Except.ok "S") "u" "d" "m" (some "a b") 1).chunks[i]?).map
        (summarizeChunk (fun _ _ => Except.ok "S") "m")) ∧
    (pipeline (fun _ _ => Except.ok "S") "u" "d" "m" (some "a b") 1).calls =
      (pipeline (fun _ _ => Except.ok "S") "u" "d" "m" (some "a b") 1).chunks.map chunkPrompt ++
        [aggPrompt "u" "d" (pipeline (fun _ _ => Except.ok "S") "u" "d" "m" (some "a b") 1).chunkSummaries] :=
  C7_summary_invariant (fun _ _ => Except.ok "S") "u" "d" "m" "a b" 1 (by decide) (by decide)
    (by decide)

/-- C8: the pipeline is deterministic — two runs with identical caption
input, limit, model, video reference and metadata, against completion clients
that return the same response for the same prompt and model, produce
identical outputs (chunk list, chunk summaries, call trace and final
report). -/
theorem C8_deterministic (client₁ client₂ : String → String → Except String String)
    (u d m : String) (caps : Option String) (L : Nat)
    (h : ∀ p mdl, client₁ p mdl = client₂ p mdl) :
    pipeline client₁ u d m caps L = pipeline client₂ u d m caps L := by
  have hcl : client₁ = client₂ := funext fun p => funext fun mdl => h p mdl
  rw [hcl]

theorem C8_deterministic_witness :
    pipeline (fun _ _ => Except.ok "S") "u" "d" "m" (some "a b") 2 =
      pipeline (fun _ _ => Except.ok "S") "u" "d" "m" (some "a b") 2 :=
  C8_deterministic _ _ "u" "d" "m" (some "a b") 2 (fun _ _ => rfl)

/-- C9: whenever a completion call succeeds — per-chunk, aggregate or
direct — the recorded result is the response text with leading and trailing
whitespace removed (`pyStrip`, the model of Python `.strip()`). -/
theorem C9_trimmed (client : String → String → Except String String)
    (u d m caps : String) (L : Nat) (hL : 0 < L) (hc : caps.data.isEmpty = false) :
    (∀ text t, client (chunkPrompt text) m = Except.ok t →
      summarizeChunk client m text = pyStrip t) ∧
    (1 < (pipeline client u d m (some caps) L).chunks.length →
      ∀ t, client (aggPrompt u d (pipeline client u d m (some caps) L).chunkSummaries) m =
          Except.ok t →
        (pipeline client u d m (some caps) L).report = pyStrip t) ∧
    (¬ 1 < (pipeline client u d m (some caps) L).chunks.length →
      ∀ t, client (chunkPrompt caps) m = Except.ok t →
        (pipeline client u d m (some caps) L).report = pyStrip t) := by
  refine ⟨fun text t ht => ?_, fun hN => ?_, fun hN => ?_⟩
  · unfold summarizeChunk
    rw [ht]
  · rw [pipeline_chunks client u d m caps L hc] at hN
    rw [pipeline_multi client u d m caps L hc hN]
    intro t ht
    dsimp only
    rw [ht]
  · rw [pipeline_chunks client u d m caps L hc] at hN
    rw [pipeline_single client u d m caps L hc hN]
    intro t ht
    dsimp only
    rw [ht]

theorem C9_trimmed_witness :
    (∀ text t, (fun _ _ => Except.ok " S " : String → String → Except String String)
        (chunkPrompt text) "m" = Except.ok t →
      summarizeChunk (fun _ _ => Except.ok " S ") "m" text = pyStrip t) ∧
    (1 < (pipeline (fun _ _ => Except.ok " S ") "u" "d" "m" (some "a b") 1).chunks.length →
      ∀ t, (fun _ _ => Except.ok " S " : String → String → Except String String)
          (aggPrompt "u" "d" (pipeline (fun _ _ => Except.ok " S ") "u" "d" "m" (some "a b") 1).chunkSummaries) "m" =
          Except.ok t →
        (pipeline (fun _ _ => Except.ok " S ") "u" "d" "m" (some "a b") 1).report = pyStrip t) ∧
    (¬ 1 < (pipeline (fun _ _ => Except.ok " S ") "u" "d" "m" (some "a b") 1).chunks.length →
      ∀ t, (fun _ _ => Except.ok " S " : String → String → Except String String)
          (chunkPrompt "a b") "m" = Except.ok t →
        (pipeline (fun _ _ => Except.ok " S ") "u" "d" "m" (some "a b") 1).report = pyStrip t) :=
  C9_trimmed (fun _ _ => Except.ok " S ") "u" "d" "m" "a b" 1 (by decide) (by decide)

/-- C10: every prompt ever sent to the completion client is exactly a fixed
literal prefix (`Summarize the following video captions:` or `Summarize the
following captions:`) followed by a chunk's text, the combined video-info and
labelled-summaries text, or the raw captions; in particular no prompt is the
report-format configuration of `get_video_summarizer` (its structured report
template or its reporter description), which is never consulted when prompts
are built. -/
theorem C10_prompt_shapes (client : String → String → Except String String)
    (u d m : String) (caps : Option String) (L : Nat) (hL : 0 < L) :
    ∀ p ∈ (pipeline client u d m caps L).calls,
      ((∃ c ∈ (pipeline client u d m caps L).chunks,
          p = "Summarize the following video captions:\n" ++ c) ∨
        p = "Summarize the following captions:\n" ++
          videoInfoMulti u d (pipeline client u d m caps L).chunkSummaries ∨
        (∃ s, caps = some s ∧ p = "Summarize the following video captions:\n" ++ s)) ∧
      p ≠ (getVideoSummarizer m true).addToSystemPrompt ∧
      p ≠ (getVideoSummarizer m true).description := by
  have hshape : ∀ p ∈ (pipeline client u d m caps L).calls,
      (∃ c ∈ (pipeline client u d m caps L).chunks,
          p = "Summarize the following video captions:\n" ++ c) ∨
        p = "Summarize the following captions:\n" ++
          videoInfoMulti u d (pipeline client u d m caps L).chunkSummaries ∨
        (∃ s, caps = some s ∧ p = "Summarize the following video captions:\n" ++ s) := by
    cases caps with
    | none => intro p hp; rw [pipeline_none] at hp; simp at hp
    | some s =>
      by_cases hs : s.data.isEmpty
      · intro p hp
        rw [pipeline_empty client u d m s L hs] at hp
        simp at hp
      · have hs' : s.data.isEmpty = false := by simpa using hs
        by_cases hN : 1 < (chunkStrings s L).length
        · rw [pipeline_multi client u d m s L hs' hN]
          intro p hp
          rcases List.mem_append.mp hp with hp | hp
          · rcases List.mem_map.mp hp with ⟨c, hcm, rfl⟩
            exact Or.inl ⟨c, hcm, rfl⟩
          · rcases List.mem_singleton.mp hp with rfl
            exact Or.inr (Or.inl rfl)
        · rw [pipeline_single client u d m s L hs' hN]
          intro p hp
          rcases List.mem_singleton.mp hp with rfl
          exact Or.inr (Or.inr ⟨s, rfl, rfl⟩)
  intro p hp
  have hS : p.data.head? = some 'S' := by
    rcases hshape p hp with ⟨c, _, rfl⟩ | rfl | ⟨s, _, rfl⟩ <;>
      exact prompt_head_S _ _ (by decide)
  refine ⟨hshape p hp, fun h => ?_, fun h => ?_⟩
  · have ht : (getVideoSummarizer m true).addToSystemPrompt.data.head? = some '\n' := rfl
    rw [h, ht] at hS
    exact absurd hS (by decide)
  · have ht : (getVideoSummarizer m true).description.data.head? = some 'Y' := rfl
    rw [h, ht] at hS
    exact absurd hS (by decide)

theorem C10_prompt_shapes_witness :
    ((∃ c ∈ (pipeline (fun _ _ => Except.ok "S") "u" "d" "m" (some "a b") 1).chunks,
        chunkPrompt "a" = "Summarize the following video captions:\n" ++ c) ∨
      chunkPrompt "a" = "Summarize the following captions:\n" ++
        videoInfoMulti "u" "d" (pipeline (fun _ _ => Except.ok "S") "u" "d" "m" (some "a b") 1).chunkSummaries ∨
      (∃ s, (some "a b" : Option String) = some s ∧
        chunkPrompt "a" = "Summarize the following video captions:\n" ++ s)) ∧
    chunkPrompt "a" ≠ (getVideoSummarizer "m" true).addToSystemPrompt ∧
    chunkPrompt "a" ≠ (getVideoSummarizer "m" true).description :=
  C10_prompt_shapes (fun _ _ => Except.ok "S") "u" "d" "m" (some "a b") 1 (by decide)
    (chunkPrompt "a") (by decide)

end YtSumm
